import Mathlib

/-!
Verification development for the hyper-reader e-book library application.

The development shallowly embeds the upload-and-deduplication request handler
(src/app/api/books/upload/route.ts), the reading-session bootstrap
(src/app/read/[id]/page.tsx) and the AI assistant pane helpers
(src/components/ai-agent-pane.tsx) as pure Lean functions, and proves the
specified properties about them.

External collaborators (the Supabase datastore, object storage and the
platform SHA-256 primitive) are modelled explicitly: database tables as lists
of rows, PostgREST single-row semantics (sentinel code PGRST116 for zero rows),
the unique-constraint violation code 23505, and fault injection for backend
failures.  Machine words in the SHA-256 model are natural numbers reduced
modulo 2^32 at every step.
-/

namespace HyperReader

/-! ## SHA-256 (models the platform call crypto.subtle.digest("SHA-256", buf))

The handler computes the dedup fingerprint with the Web Crypto API, an external
primitive; it is embedded here as the FIPS 180-4 SHA-256 algorithm over a list
of bytes.  All word arithmetic is on Nat, truncated by w32. -/

/-- Truncate a natural number to a 32-bit word. -/
def w32 (n : Nat) : Nat := n % 4294967296

/-- Right rotation of a 32-bit word by n bits. -/
def rotr (n x : Nat) : Nat := w32 ((x >>> n) ||| (x <<< (32 - n)))

/-- Bitwise complement of a 32-bit word. -/
def not32 (x : Nat) : Nat := x ^^^ 4294967295

/-- The eight 32-bit working variables of the compression function. -/
structure H8 where
  a : Nat
  b : Nat
  c : Nat
  d : Nat
  e : Nat
  f : Nat
  g : Nat
  h : Nat
deriving Repr, DecidableEq

/-- SHA-256 initial hash value (FIPS 180-4 words, written in decimal). -/
def initH : H8 :=
  ⟨1779033703, 3144134277, 1013904242, 2773480762,
   1359893119, 2600822924, 528734635, 1541459225⟩

/-- SHA-256 round constants (FIPS 180-4 words, written in decimal). -/
def K256 : List Nat :=
  [1116352408, 1899447441, 3049323471, 3921009573, 961987163,
   1508970993, 2453635748, 2870763221, 3624381080, 310598401,
   607225278, 1426881987, 1925078388, 2162078206, 2614888103,
   3248222580, 3835390401, 4022224774, 264347078, 604807628,
   770255983, 1249150122, 1555081692, 1996064986, 2554220882,
   2821834349, 2952996808, 3210313671, 3336571891, 3584528711,
   113926993, 338241895, 666307205, 773529912, 1294757372,
   1396182291, 1695183700, 1986661051, 2177026350, 2456956037,
   2730485921, 2820302411, 3259730800, 3345764771, 3516065817,
   3600352804, 4094571909, 275423344, 430227734, 506948616,
   659060556, 883997877, 958139571, 1322822218, 1537002063,
   1747873779, 1955562222, 2024104815, 2227730452, 2361852424,
   2428436474, 2756734187, 3204031479, 3329325298]

/-- Pack bytes into 32-bit big-endian words (structural recursion, groups of four). -/
def toWords : List Nat → List Nat
  | b0 :: b1 :: b2 :: b3 :: rest =>
      w32 (b0 * 16777216 + b1 * 65536 + b2 * 256 + b3) :: toWords rest
  | _ => []

/-- Extend a 16-word message schedule to 64 words; the first argument is the
number of words still to append (48 for a full block), keeping the recursion
structural. -/
def scheduleExtend : Nat → List Nat → List Nat
  | 0, w => w
  | k + 1, w =>
      let n := w.length
      let w15 := w.getD (n - 15) 0
      let w2 := w.getD (n - 2) 0
      let w16 := w.getD (n - 16) 0
      let w7 := w.getD (n - 7) 0
      let s0 := w32 ((rotr 7 w15) ^^^ (rotr 18 w15) ^^^ (w15 >>> 3))
      let s1 := w32 ((rotr 17 w2) ^^^ (rotr 19 w2) ^^^ (w2 >>> 10))
      scheduleExtend k (w ++ [w32 (w16 + s0 + w7 + s1)])

/-- One SHA-256 round: consumes a (schedule word, round constant) pair. -/
def sha256Round (st : H8) (wk : Nat × Nat) : H8 :=
  let S1 := w32 ((rotr 6 st.e) ^^^ (rotr 11 st.e) ^^^ (rotr 25 st.e))
  let ch := w32 ((st.e &&& st.f) ^^^ ((not32 st.e) &&& st.g))
  let temp1 := w32 (st.h + S1 + ch + wk.2 + wk.1)
  let S0 := w32 ((rotr 2 st.a) ^^^ (rotr 13 st.a) ^^^ (rotr 22 st.a))
  let maj := w32 ((st.a &&& st.b) ^^^ (st.a &&& st.c) ^^^ (st.b &&& st.c))
  let temp2 := w32 (S0 + maj)
  ⟨w32 (temp1 + temp2), st.a, st.b, st.c, w32 (st.d + temp1), st.e, st.f, st.g⟩

/-- Compress one 64-byte block into the running hash value. -/
def sha256Compress (h : H8) (block : List Nat) : H8 :=
  let ws := scheduleExtend 48 (toWords block)
  let st := (List.zip ws K256).foldl sha256Round h
  ⟨w32 (h.a + st.a), w32 (h.b + st.b), w32 (h.c + st.c), w32 (h.d + st.d),
   w32 (h.e + st.e), w32 (h.f + st.f), w32 (h.g + st.g), w32 (h.h + st.h)⟩

/-- Split a byte list into 64-byte blocks; the fuel argument (instantiated with
the list length) keeps the recursion structural. -/
def chunks64 : Nat → List Nat → List (List Nat)
  | 0, _ => []
  | _, [] => []
  | fuel + 1, l => l.take 64 :: chunks64 fuel (l.drop 64)

/-- SHA-256 padding: append 0x80, zero bytes up to 56 mod 64, then the 64-bit
big-endian bit length of the message. -/
def sha256Pad (msg : List Nat) : List Nat :=
  let L := msg.length
  let zeros := (119 - (L % 64)) % 64
  let bl := L * 8
  msg ++ [128] ++ List.replicate zeros 0 ++
    [(bl >>> 56) % 256, (bl >>> 48) % 256, (bl >>> 40) % 256, (bl >>> 32) % 256,
     (bl >>> 24) % 256, (bl >>> 16) % 256, (bl >>> 8) % 256, bl % 256]

/-- SHA-256 digest of a byte list, as the final eight 32-bit words. -/
def sha256Words (msg : List Nat) : H8 :=
  let padded := sha256Pad msg
  (chunks64 padded.length padded).foldl sha256Compress initH

/-- Big-endian bytes of one 32-bit word. -/
def wordBytes (w : Nat) : List Nat :=
  [(w >>> 24) % 256, (w >>> 16) % 256, (w >>> 8) % 256, w % 256]

/-- The 32 digest bytes (models new Uint8Array(hashBuffer) in the handler). -/
def sha256Bytes (msg : List Nat) : List Nat :=
  let h := sha256Words msg
  wordBytes h.a ++ wordBytes h.b ++ wordBytes h.c ++ wordBytes h.d ++
    wordBytes h.e ++ wordBytes h.f ++ wordBytes h.g ++ wordBytes h.h

/-- Two-character zero-padded lowercase hex rendering of one byte.  Models
b.toString(16).padStart(2, "0"): Nat.toDigits 16 is the minimal lowercase
hex rendering, and the replicate prefix is the left padding to width two. -/
def hexByte (b : Nat) : List Char :=
  let ds := Nat.toDigits 16 b
  List.replicate (2 - ds.length) '0' ++ ds

/-- Hex fingerprint of a byte buffer: the digest bytes rendered in hex and
joined (models hashArray.map(b => b.toString(16).padStart(2, "0")).join("")). -/
def sha256Hex (msg : List Nat) : String :=
  String.mk ((sha256Bytes msg).flatMap hexByte)

/-! ## Data model for the upload handler (src/app/api/books/upload/route.ts)

The Supabase backend is modelled as a state: the books table, the user_books
table, and the set of object paths in the epubs storage bucket.  Errors carry
the PostgREST fields the handler inspects (code, message, details, hint).
Backend failures that are not determined by the state (network faults,
concurrent writers) are injected through a Behavior record; a None entry means
the operation behaves according to the modelled state. -/

/-- The uploaded file as the handler sees it: name, declared media type and
raw byte buffer (file.size equals the buffer length for the File API). -/
structure FileData where
  name : String
  type : String
  bytes : List Nat
deriving Repr, DecidableEq

/-- A backend error object (PostgREST / storage error shape). -/
structure DbError where
  code : String
  message : String
  details : String
  hint : String
deriving Repr, DecidableEq

/-- One row of the books table (the Content Record). -/
structure Book where
  id : String
  title : String
  file_size : Nat
  file_checksum : String
  uploaded_by : String
  storage_path : String
  file_name : String
  readium_manifest_path : Option String
deriving Repr, DecidableEq

/-- One row of the user_books table (the Ownership Link). -/
structure UserBook where
  user_id : String
  book_id : String
deriving Repr, DecidableEq

/-- The backend state: books table, user_books table, storage object paths. -/
structure Db where
  books : List Book
  user_books : List UserBook
  objects : List String
deriving Repr, DecidableEq

/-- PostgREST sentinel code for "no rows returned" from .single(). -/
def noRowsCode : String := "PGRST116"

/-- PostgreSQL unique-constraint violation code. -/
def uniqueViolationCode : String := "23505"

/-- Result of a .single() query: the unique matching row, or an error whose
code is PGRST116 when the match is not exactly one row. -/
def selectSingle (rows : List Book) : Except DbError Book :=
  match rows with
  | [b] => .ok b
  | _ => .error ⟨noRowsCode, "JSON object requested, multiple (or no) rows returned", "", ""⟩

/-- Data field of a .single() query when the handler discards the error:
some row exactly when the match is a single row. -/
def singleData {α : Type} (rows : List α) : Option α :=
  match rows with
  | [a] => some a
  | _ => none

/-- Fault injection for the backend calls made by the upload handler, in
request order.  A some entry makes that call fail with the given error (for
lookups: return that error / no data); raceLookupData overrides the data seen
by the re-resolve after a unique-violation insert failure, modelling the row
committed by a concurrent request. -/
structure Behavior where
  dupLookupFault : Option DbError := none
  linkLookupFault : Option DbError := none
  linkInsertFault : Option DbError := none
  bookInsertFault : Option DbError := none
  raceLookupData : Option (Option Book) := none
  raceLinkLookupFault : Option DbError := none
  raceLinkInsertFault : Option DbError := none
  storageFault : Option DbError := none
  newLinkInsertFault : Option DbError := none
deriving Repr, DecidableEq

/-- The default behavior: every backend call follows the modelled state. -/
def Behavior.none : Behavior := {}

/-- Responses of the upload endpoint.  serverError carries the details field
and the optional code/hint fields of the 500-class JSON bodies; success with
duplicate = false models the 200 body without a duplicate field. -/
inductive UploadResponse where
  | unauthorized
  | badRequest (error : String)
  | serverError (error details : String) (code hint : Option String)
  | success (book_id : String) (duplicate : Bool) (message : String)
deriving Repr, DecidableEq

/-- HTTP status of each response shape. -/
def UploadResponse.status : UploadResponse → Nat
  | .unauthorized => 401
  | .badRequest _ => 400
  | .serverError _ _ _ _ => 500
  | .success _ _ _ => 200

/-- Checks whether the file name ends in ".epub" case-insensitively
(models file.name.toLowerCase().endsWith(".epub")). -/
def epubNameOk (name : String) : Bool :=
  ".epub".data.isSuffixOf (name.data.map Char.toLower)

/-- The file-type validation of the handler: declared EPUB media type, or an
.epub extension. -/
def fileTypeOk (file : FileData) : Bool :=
  file.type == "application/epub+zip" || epubNameOk file.name

/-- Default title derivation: strip one trailing ".epub" (case-insensitive)
from the file name (models file.name.replace(/\.epub$/i, "")). -/
def stripEpubSuffix (name : String) : String :=
  if epubNameOk name then String.mk (name.data.take (name.data.length - 5)) else name

/-- The storage path computed for a new upload. -/
def storagePathFor (userId bookId : String) : String :=
  "books/" ++ userId ++ "/" ++ bookId ++ ".epub"

/-- The duplicate path of the handler (lines 60-93 of route.ts): the checksum
matched existingBook; check the ownership link, insert it if absent, and
answer 200 with duplicate = true. -/
def linkDuplicate (userId : String) (existingBook : Book) (beh : Behavior) (db : Db) :
    UploadResponse × Db :=
  let existingLink : Option UserBook :=
    match beh.linkLookupFault with
    | some _ => none
    | none =>
        singleData (db.user_books.filter
          (fun l => l.user_id == userId && l.book_id == existingBook.id))
  match existingLink with
  | some _ =>
      (.success existingBook.id true "Book already exists and has been added to your library", db)
  | none =>
      match beh.linkInsertFault with
      | some linkError =>
          (.serverError "Failed to link book to user" linkError.message none none, db)
      | none =>
          (.success existingBook.id true "Book already exists and has been added to your library",
           { db with user_books := db.user_books ++ [⟨userId, existingBook.id⟩] })

/-- The creation path of the handler (lines 95-225 of route.ts): insert the
Content Record (unique constraints on the id primary key and the checksum),
recover from a 23505 race by re-resolving the checksum, upload the bytes
(upsert: false), link ownership, compensating on partial failure. -/
def createNewBook (userId : String) (file : FileData) (hashHex newId : String)
    (beh : Behavior) (db : Db) : UploadResponse × Db :=
  let bookId := newId
  let storagePath := storagePathFor userId bookId
  let bookData : Book :=
    { id := bookId
      title := stripEpubSuffix file.name
      file_size := file.bytes.length
      file_checksum := hashHex
      uploaded_by := userId
      storage_path := storagePath
      file_name := file.name
      readium_manifest_path := none }
  let insertResult : Except DbError Db :=
    match beh.bookInsertFault with
    | some e => .error e
    | none =>
        if db.books.any (fun b => b.id == bookData.id || b.file_checksum == bookData.file_checksum)
        then .error ⟨uniqueViolationCode, "duplicate key value violates unique constraint", "", ""⟩
        else .ok { db with books := db.books ++ [bookData] }
  match insertResult with
  | .error bookError =>
      if bookError.code == uniqueViolationCode then
        let raceConditionBook : Option Book :=
          match beh.raceLookupData with
          | some override => override
          | none => singleData (db.books.filter (fun b => b.file_checksum == hashHex))
        match raceConditionBook with
        | some rb =>
            let existingLink : Option UserBook :=
              match beh.raceLinkLookupFault with
              | some _ => none
              | none =>
                  singleData (db.user_books.filter
                    (fun l => l.user_id == userId && l.book_id == rb.id))
            let db1 :=
              match existingLink with
              | some _ => db
              | none =>
                  match beh.raceLinkInsertFault with
                  | some _ => db
                  | none => { db with user_books := db.user_books ++ [⟨userId, rb.id⟩] }
            (.success rb.id true "Book already exists and has been added to your library", db1)
        | none =>
            (.serverError "Failed to create book record" bookError.message
              (some bookError.code) (some bookError.hint), db)
      else
        (.serverError "Failed to create book record" bookError.message
          (some bookError.code) (some bookError.hint), db)
  | .ok db1 =>
      let uploadResult : Except DbError Db :=
        match beh.storageFault with
        | some e => .error e
        | none =>
            if db1.objects.any (fun p => p == storagePath) then
              .error ⟨"", "The resource already exists", "", ""⟩
            else .ok { db1 with objects := db1.objects ++ [storagePath] }
      match uploadResult with
      | .error uploadError =>
          let db2 := { db1 with books := db1.books.filter (fun b => !(b.id == bookId)) }
          (.serverError "Failed to upload file to storage" uploadError.message none none, db2)
      | .ok db2 =>
          match beh.newLinkInsertFault with
          | some linkError =>
              let db3 := { db2 with books := db2.books.filter (fun b => !(b.id == bookId)) }
              let db4 := { db3 with objects := db3.objects.filter (fun p => !(p == storagePath)) }
              (.serverError "Failed to link book to user" linkError.message none none, db4)
          | none =>
              (.success bookId false "Book uploaded successfully",
               { db2 with user_books := db2.user_books ++ [⟨userId, bookId⟩] })

/-- The post-validation body of the handler: compute the fingerprint of the
full byte buffer, run the duplicate check, and branch. -/
def ingest (userId : String) (file : FileData) (newId : String) (beh : Behavior) (db : Db) :
    UploadResponse × Db :=
  let hashHex := sha256Hex file.bytes
  let checkResult : Except DbError Book :=
    match beh.dupLookupFault with
    | some e => .error e
    | none => selectSingle (db.books.filter (fun b => b.file_checksum == hashHex))
  match checkResult with
  | .error checkError =>
      if checkError.code != noRowsCode then
        (.serverError "Database error" checkError.message none none, db)
      else
        createNewBook userId file hashHex newId beh db
  | .ok existingBook => linkDuplicate userId existingBook beh db

/-- The POST handler of the upload endpoint: authentication, form and type
validation, then ingestion.  auth is the authenticated user id (none models
an auth error or missing user); form is the file field of the form data;
newId models crypto.randomUUID(). -/
def POST (auth : Option String) (form : Option FileData) (newId : String)
    (beh : Behavior) (db : Db) : UploadResponse × Db :=
  match auth with
  | none => (.unauthorized, db)
  | some userId =>
      match form with
      | none => (.badRequest "No file provided", db)
      | some file =>
          if !fileTypeOk file then
            (.badRequest "Invalid file type. Expected EPUB file.", db)
          else
            ingest userId file newId beh db

/-! ## Reading session bootstrap (src/app/read/[id]/page.tsx)

The page is a read-only server component: it authenticates, looks up the book
row by id, verifies the ownership link, and either redirects, renders the
"Manifest Not Found" panel, or hands off to the BookReader component. -/

/-- Outcome of the reading page: a redirect, the manifest-not-configured
panel, or the hand-off to the rendering engine with (bookId, manifestPath,
title). -/
inductive ReadResult where
  | redirectLogin
  | redirectHome
  | manifestNotConfigured
  | reader (bookId manifestPath title : String)
deriving Repr, DecidableEq

/-- The reading page bootstrap.  auth is the authenticated user id (none for
an auth error); id is the route parameter.  The page never mutates the
backend, which the embedding reflects by consuming the state read-only. -/
def ReadBookPage (auth : Option String) (db : Db) (id : String) : ReadResult :=
  match auth with
  | none => .redirectLogin
  | some userId =>
      match singleData (db.books.filter (fun b => b.id == id)) with
      | none => .redirectHome
      | some book =>
          match singleData (db.user_books.filter
              (fun l => l.user_id == userId && l.book_id == id)) with
          | none => .redirectHome
          | some _ =>
              match book.readium_manifest_path with
              | none => .manifestNotConfigured
              | some p =>
                  if p == "" then .manifestNotConfigured
                  else .reader id p book.title

/-! ## Assistant streaming handler (handleStreamingResponse in
src/components/ai-agent-pane.tsx)

The handler reads chunks, maintains a carry-over buffer, splits on newlines,
keeps the trailing partial line, and processes each complete line: data-marked
lines either terminate on the [DONE] sentinel (ending the loading state and
returning) or contribute their parsed content fragment to the growing
assistant message, skipping unparseable payloads.  Strings are embedded as
character lists; JSON.parse is an external primitive, abstracted as a function
from the payload to an optional object with an optional content field. -/

namespace ChatStream

/-- The result of JSON.parse on a payload, restricted to the field the
handler reads: none models a parse failure, content none a JSON object with
no (string) content field. -/
structure ParsedChunk where
  content : Option (List Char)
deriving Repr, DecidableEq

/-- The mutable state of the streaming loop: the carry-over buffer, the
accumulated assistant message, the number of times the loading state was
ended, and whether the [DONE] sentinel returned from the handler. -/
structure StreamState where
  buffer : List Char
  message : List Char
  loadingEnds : Nat
  finished : Bool
deriving Repr, DecidableEq

/-- The line marker "data: ". -/
def dataMarker : List Char := ['d', 'a', 't', 'a', ':', ' ']

/-- The terminator payload "[DONE]". -/
def doneSentinel : List Char := ['[', 'D', 'O', 'N', 'E', ']']

/-- Newline split, matching the JavaScript buffer.split("\n"): the result is
always nonempty and the last element is the text after the final newline. -/
def splitNl : List Char → List (List Char)
  | [] => [[]]
  | c :: rest =>
      if c = '\n' then [] :: splitNl rest
      else
        match splitNl rest with
        | [] => [[c]]
        | l :: ls => (c :: l) :: ls

/-- Process one complete line.  After the [DONE] return the handler reads
nothing further, modelled by the finished flag; the local buffer is dead at
that point and is cleared so that returned states are canonical. -/
def procLine (parse : List Char → Option ParsedChunk) (st : StreamState)
    (line : List Char) : StreamState :=
  if st.finished then st
  else if dataMarker.isPrefixOf line then
    let data := line.drop 6
    if data = doneSentinel then
      { st with finished := true, loadingEnds := st.loadingEnds + 1, buffer := [] }
    else
      match parse data with
      | some parsed =>
          match parsed.content with
          | some c => if c.isEmpty then st else { st with message := st.message ++ c }
          | none => st
      | none => st
  else st

/-- Process one decoded chunk: append to the buffer, split on newlines, keep
the trailing element as the new buffer, and process the complete lines. -/
def feedChunk (parse : List Char → Option ParsedChunk) (st : StreamState)
    (chunk : List Char) : StreamState :=
  if st.finished then st
  else
    let lines := splitNl (st.buffer ++ chunk)
    (lines.dropLast).foldl (procLine parse) { st with buffer := lines.getLastD [] }

/-- The initial loop state. -/
def initState : StreamState := ⟨[], [], 0, false⟩

/-- The whole streaming loop over a chunked response body, including the
final setIsLoading(false) when the body ends without a [DONE] sentinel. -/
def handleStreamingResponse (parse : List Char → Option ParsedChunk)
    (chunks : List (List Char)) : StreamState :=
  let st := chunks.foldl (feedChunk parse) initState
  if st.finished then st else { st with loadingEnds := st.loadingEnds + 1 }

/-- Concatenation of all chunks: the full response body. -/
def joinChunks (chunks : List (List Char)) : List Char :=
  chunks.foldr (· ++ ·) []

/-- The content fragment a payload contributes: empty when the payload does
not parse or carries no content field. -/
def contentOf (parse : List Char → Option ParsedChunk) (data : List Char) : List Char :=
  match parse data with
  | some parsed =>
      match parsed.content with
      | some c => c
      | none => []
  | none => []

/-- Modelled from the spec: the expected reconstruction over a list of
complete lines — the in-order concatenation of the content fields of every
data-marked line whose payload parses, stopping at the first data-marked
[DONE] line. -/
def expectedMessage (parse : List Char → Option ParsedChunk) :
    List (List Char) → List Char
  | [] => []
  | line :: rest =>
      if dataMarker.isPrefixOf line then
        if line.drop 6 = doneSentinel then []
        else contentOf parse (line.drop 6) ++ expectedMessage parse rest
      else expectedMessage parse rest

end ChatStream

/-! ## Position-label formatter (formatSelectionPositionLabel in
src/components/ai-agent-pane.tsx) -/

/-- JavaScript-style whitespace test for the characters parseInt skips. -/
def jsSpace (c : Char) : Bool :=
  c = ' ' || c = '\t' || c = '\n' || c = '\r'

/-- Numeric value of the longest leading digit run, none when it is empty
(the NaN outcome of parseInt). -/
def leadingDigits (l : List Char) : Option Nat :=
  match l.takeWhile Char.isDigit with
  | [] => none
  | ds => some (ds.foldl (fun acc c => acc * 10 + (c.toNat - 48)) 0)

/-- parseInt(s, 10): skip leading whitespace, read an optional sign and the
longest digit run; none models NaN. -/
def parseIntJs (s : String) : Option Int :=
  match s.data.dropWhile jsSpace with
  | '-' :: rest => (leadingDigits rest).map (fun n => -(n : Int))
  | '+' :: rest => (leadingDigits rest).map (fun n => (n : Int))
  | other => (leadingDigits other).map (fun n => (n : Int))

/-- Split on the separator class [/:] (models pos.split(/[/:]/)). -/
def splitPosSep : List Char → List (List Char)
  | [] => [[]]
  | c :: rest =>
      if c = '/' ∨ c = ':' then [] :: splitPosSep rest
      else
        match splitPosSep rest with
        | [] => [[c]]
        | l :: ls => (c :: l) :: ls

/-- The three numeric components of a locator string. -/
structure ThreePart where
  a : Int
  b : Int
  c : Int
deriving Repr, DecidableEq

/-- parseThreePart: split the locator on [/:], parseInt every piece, and fail
unless there are at least three pieces and every piece is numeric. -/
def parseThreePart (pos : String) : Option ThreePart :=
  let parts := (splitPosSep pos.data).map (fun p => parseIntJs (String.mk p))
  match parts with
  | some a :: some b :: some c :: rest =>
      if rest.any Option.isNone then none else some ⟨a, b, c⟩
  | _ => none

/-- Replace every '/' by ':' (models pos.replaceAll("/", ":")). -/
def compactPos (pos : String) : String :=
  String.mk (pos.data.map (fun c => if c = '/' then ':' else c))

/-- The label/title pair shown next to a message. -/
structure LabelTitle where
  label : String
  title : String
deriving Repr, DecidableEq

/-- The position-label formatter: page-based parse of both locators first,
falling back to the compact slash-replaced rendering. -/
def formatSelectionPositionLabel (startPos stopPos : String) : LabelTitle :=
  match parseThreePart startPos, parseThreePart stopPos with
  | some s3, some e3 =>
      ⟨"(" ++ toString s3.a ++ ":" ++ toString s3.b ++ "-"
           ++ toString e3.a ++ ":" ++ toString e3.b ++ ")",
       "start=" ++ startPos ++ " end=" ++ stopPos⟩
  | _, _ =>
      ⟨"(" ++ compactPos startPos ++ "-" ++ compactPos stopPos ++ ")",
       "start=" ++ startPos ++ " end=" ++ stopPos⟩

/-- The arguments handleExplainSelection passes to the summary-store query:
the book id and the raw locator pair, independent of the cosmetic label. -/
def summariesQueryArgs (bookId : String) (pos : String × String) :
    String × String × String :=
  (bookId, pos.1, pos.2)

/-- The sixteen lowercase hex digits. -/
def lowercaseHexDigits : List Char := "0123456789abcdef".data

/-! ## Theorems -/

/-- C5: every unauthenticated upload gets 401; a request without a file gets
400; a file failing both the media-type and the extension condition gets 400
with no state created; a file satisfying either condition passes validation
and proceeds to ingestion. -/
theorem upload_validation_c5 :
    (∀ form newId beh db, POST none form newId beh db = (.unauthorized, db)
       ∧ (POST none form newId beh db).1.status = 401)
  ∧ (∀ userId newId beh db,
       POST (some userId) none newId beh db = (.badRequest "No file provided", db)
       ∧ (POST (some userId) none newId beh db).1.status = 400)
  ∧ (∀ userId (file : FileData) newId beh db,
       file.type ≠ "application/epub+zip" → epubNameOk file.name = false →
       POST (some userId) (some file) newId beh db
         = (.badRequest "Invalid file type. Expected EPUB file.", db)
       ∧ (POST (some userId) (some file) newId beh db).1.status = 400)
  ∧ (∀ userId (file : FileData) newId beh db,
       (file.type = "application/epub+zip" ∨ epubNameOk file.name = true) →
       POST (some userId) (some file) newId beh db = ingest userId file newId beh db) := by
  refine ⟨fun _ _ _ _ => ⟨rfl, rfl⟩, fun _ _ _ _ => ⟨rfl, rfl⟩, ?_, ?_⟩
  · intro userId file newId beh db htype hext
    have hv : fileTypeOk file = false := by
      simp only [fileTypeOk, hext, Bool.or_false]
      exact beq_eq_false_iff_ne.mpr htype
    exact ⟨by simp [POST, hv], by simp [POST, hv, UploadResponse.status]⟩
  · intro userId file newId beh db hvalid
    have hv : fileTypeOk file = true := by
      rcases hvalid with h | h
      · simp [fileTypeOk, h]
      · simp [fileTypeOk, h]
    simp [POST, hv]

/-- Witness for C5 at a concrete invalid and a concrete valid file. -/
theorem upload_validation_c5_witness :
    (POST (some "u1") (some ⟨"notes.txt", "text/plain", []⟩) "id1" Behavior.none ⟨[], [], []⟩
       = (.badRequest "Invalid file type. Expected EPUB file.", ⟨[], [], []⟩))
  ∧ (POST (some "u1") (some ⟨"Moby Dick.EPUB", "application/octet-stream", []⟩) "id1"
       Behavior.none ⟨[], [], []⟩
       = ingest "u1" ⟨"Moby Dick.EPUB", "application/octet-stream", []⟩ "id1"
           Behavior.none ⟨[], [], []⟩) :=
  ⟨(upload_validation_c5.2.2.1 "u1" ⟨"notes.txt", "text/plain", []⟩ "id1" Behavior.none
      ⟨[], [], []⟩ (by decide) (by decide)).1,
   upload_validation_c5.2.2.2 "u1" ⟨"Moby Dick.EPUB", "application/octet-stream", []⟩ "id1"
      Behavior.none ⟨[], [], []⟩ (Or.inr (by decide))⟩

/-- C4: the duplicate check is a single lookup keyed on checksum equality;
a lookup error carrying the PGRST116 no-rows sentinel (and likewise the
no-rows outcome itself) continues on the normal non-duplicate branch, while a
lookup error with any other code fails the request with a 500-class response
carrying the backend message. -/
theorem dup_resolution_c4 :
    (∀ userId (file : FileData) newId (beh : Behavior) db (e : DbError),
       fileTypeOk file = true →
       beh.dupLookupFault = some e →
       ((e.code ≠ noRowsCode →
           POST (some userId) (some file) newId beh db
             = (.serverError "Database error" e.message none none, db)
           ∧ (POST (some userId) (some file) newId beh db).1.status = 500)
        ∧ (e.code = noRowsCode →
           POST (some userId) (some file) newId beh db
             = createNewBook userId file (sha256Hex file.bytes) newId beh db)))
  ∧ (∀ userId (file : FileData) newId (beh : Behavior) db,
       fileTypeOk file = true →
       beh.dupLookupFault = none →
       db.books.filter (fun b => b.file_checksum == sha256Hex file.bytes) = [] →
       POST (some userId) (some file) newId beh db
         = createNewBook userId file (sha256Hex file.bytes) newId beh db) := by
  constructor
  · intro userId file newId beh db e hv hfault
    constructor
    · intro hcode
      have hne : (e.code != noRowsCode) = true := by
        simpa using bne_iff_ne.mpr hcode
      constructor
      · simp [POST, hv, ingest, hfault, hne]
      · simp [POST, hv, ingest, hfault, hne, UploadResponse.status]
    · intro hcode
      have hne : (e.code != noRowsCode) = false := by
        simp [bne, hcode]
      simp [POST, hv, ingest, hfault, hne]
  · intro userId file newId beh db hv hfault hfilter
    simp [POST, hv, ingest, hfault, hfilter, selectSingle]

/-- Witness for C4: a genuine backend error escalates with its message, while
a PGRST116 lookup outcome proceeds to the creation path. -/
theorem dup_resolution_c4_witness :
    (POST (some "u1") (some ⟨"a.epub", "application/epub+zip", []⟩) "id1"
        { dupLookupFault := some ⟨"08006", "connection failure", "", ""⟩ } ⟨[], [], []⟩
      = (.serverError "Database error" "connection failure" none none, ⟨[], [], []⟩))
  ∧ (POST (some "u1") (some ⟨"a.epub", "application/epub+zip", []⟩) "id1"
        Behavior.none ⟨[], [], []⟩
      = createNewBook "u1" ⟨"a.epub", "application/epub+zip", []⟩ (sha256Hex []) "id1"
          Behavior.none ⟨[], [], []⟩) :=
  ⟨((dup_resolution_c4.1 "u1" ⟨"a.epub", "application/epub+zip", []⟩ "id1"
      { dupLookupFault := some ⟨"08006", "connection failure", "", ""⟩ } ⟨[], [], []⟩
      ⟨"08006", "connection failure", "", ""⟩ (by decide) rfl).1 (by decide)).1,
   dup_resolution_c4.2 "u1" ⟨"a.epub", "application/epub+zip", []⟩ "id1"
      Behavior.none ⟨[], [], []⟩ (by decide) rfl rfl⟩

/-- C8: the reading-session bootstrap (a read-only page) redirects to login
without authentication; redirects to the library root when the book id does
not resolve or when the user holds no ownership link for it — in particular
an existing but unowned book redirects; renders the manifest-not-configured
state when the manifest field is null or empty; and otherwise hands exactly
the content id, manifest location and title to the rendering engine. -/
theorem read_bootstrap_c8 :
    (∀ db id, ReadBookPage none db id = .redirectLogin)
  ∧ (∀ userId db id, db.books.filter (fun b => b.id == id) = [] →
       ReadBookPage (some userId) db id = .redirectHome)
  ∧ (∀ userId db id bk, db.books.filter (fun b => b.id == id) = [bk] →
       db.user_books.filter (fun l => l.user_id == userId && l.book_id == id) = [] →
       ReadBookPage (some userId) db id = .redirectHome)
  ∧ (∀ userId db id bk lk, db.books.filter (fun b => b.id == id) = [bk] →
       db.user_books.filter (fun l => l.user_id == userId && l.book_id == id) = [lk] →
       (bk.readium_manifest_path = none ∨ bk.readium_manifest_path = some "") →
       ReadBookPage (some userId) db id = .manifestNotConfigured)
  ∧ (∀ userId db id bk lk p, db.books.filter (fun b => b.id == id) = [bk] →
       db.user_books.filter (fun l => l.user_id == userId && l.book_id == id) = [lk] →
       bk.readium_manifest_path = some p → p ≠ "" →
       ReadBookPage (some userId) db id = .reader id p bk.title) := by
  refine ⟨fun _ _ => rfl, ?_, ?_, ?_, ?_⟩
  · intro userId db id hbk
    simp [ReadBookPage, singleData, hbk]
  · intro userId db id bk hbk hlk
    simp [ReadBookPage, singleData, hbk, hlk]
  · intro userId db id bk lk hbk hlk hm
    rcases hm with hm | hm <;> simp [ReadBookPage, singleData, hbk, hlk, hm]
  · intro userId db id bk lk p hbk hlk hm hp
    have hpe : (p == "") = false := beq_eq_false_iff_ne.mpr hp
    simp [ReadBookPage, singleData, hbk, hlk, hm, hpe]

/-- Witness for C8: a user who does not own an existing book is redirected to
the library root, and the owner with a configured manifest reaches the
reader hand-off. -/
theorem read_bootstrap_c8_witness :
    (ReadBookPage (some "intruder")
        ⟨[⟨"b1", "T", 3, "c", "owner", "p", "f", some "m/manifest.json"⟩],
         [⟨"owner", "b1"⟩], []⟩ "b1" = .redirectHome)
  ∧ (ReadBookPage (some "owner")
        ⟨[⟨"b1", "T", 3, "c", "owner", "p", "f", some "m/manifest.json"⟩],
         [⟨"owner", "b1"⟩], []⟩ "b1" = .reader "b1" "m/manifest.json" "T") :=
  ⟨read_bootstrap_c8.2.2.1 "intruder"
      ⟨[⟨"b1", "T", 3, "c", "owner", "p", "f", some "m/manifest.json"⟩],
       [⟨"owner", "b1"⟩], []⟩ "b1"
      ⟨"b1", "T", 3, "c", "owner", "p", "f", some "m/manifest.json"⟩
      (by decide) (by decide),
   read_bootstrap_c8.2.2.2.2 "owner"
      ⟨[⟨"b1", "T", 3, "c", "owner", "p", "f", some "m/manifest.json"⟩],
       [⟨"owner", "b1"⟩], []⟩ "b1"
      ⟨"b1", "T", 3, "c", "owner", "p", "f", some "m/manifest.json"⟩
      ⟨"owner", "b1"⟩ "m/manifest.json" (by decide) (by decide) rfl (by decide)⟩

/-- C9: the formatter tries the page-based three-numeric-component parse on
both locators first and, when both succeed, renders the first two components
of each as "(a:b-a2:b2)"; otherwise it renders both raw locators compactly
with every slash replaced by a colon; the title is always the raw
"start=... end=..." pair; and the summary-store query receives the raw
locator pair, untouched by the formatting.  Concrete page-form and
path-form locators illustrate both shapes. -/
theorem format_label_c9 :
    (∀ s e s3 e3, parseThreePart s = some s3 → parseThreePart e = some e3 →
       formatSelectionPositionLabel s e =
         ⟨"(" ++ toString s3.a ++ ":" ++ toString s3.b ++ "-"
              ++ toString e3.a ++ ":" ++ toString e3.b ++ ")",
          "start=" ++ s ++ " end=" ++ e⟩)
  ∧ (∀ s e, parseThreePart s = none ∨ parseThreePart e = none →
       formatSelectionPositionLabel s e =
         ⟨"(" ++ compactPos s ++ "-" ++ compactPos e ++ ")",
          "start=" ++ s ++ " end=" ++ e⟩)
  ∧ formatSelectionPositionLabel "3/7/120" "3/9/15"
      = ⟨"(3:7-3:9)", "start=3/7/120 end=3/9/15"⟩
  ∧ formatSelectionPositionLabel "0/chap1.xhtml/40" "0/chap1.xhtml/95"
      = ⟨"(0:chap1.xhtml:40-0:chap1.xhtml:95)",
         "start=0/chap1.xhtml/40 end=0/chap1.xhtml/95"⟩
  ∧ (∀ bookId pos, summariesQueryArgs bookId pos = (bookId, pos.1, pos.2)) := by
  refine ⟨?_, ?_, by decide, by decide, fun _ _ => rfl⟩
  · intro s e s3 e3 hs he
    simp [formatSelectionPositionLabel, hs, he]
  · intro s e h
    rcases h with h | h
    · simp [formatSelectionPositionLabel, h]
    · cases hs : parseThreePart s <;> simp [formatSelectionPositionLabel, hs, h]

/-- Witness for C9: both branches applied at concrete locators. -/
theorem format_label_c9_witness :
    (formatSelectionPositionLabel "12/4/130" "12/5/2"
       = ⟨"(" ++ toString (12 : Int) ++ ":" ++ toString (4 : Int) ++ "-"
              ++ toString (12 : Int) ++ ":" ++ toString (5 : Int) ++ ")",
          "start=" ++ "12/4/130" ++ " end=" ++ "12/5/2"⟩)
  ∧ (formatSelectionPositionLabel "2/text/9" "2/text/20"
       = ⟨"(" ++ compactPos "2/text/9" ++ "-" ++ compactPos "2/text/20" ++ ")",
          "start=" ++ "2/text/9" ++ " end=" ++ "2/text/20"⟩) :=
  ⟨format_label_c9.1 "12/4/130" "12/5/2" ⟨12, 4, 130⟩ ⟨12, 5, 2⟩ (by decide) (by decide),
   format_label_c9.2.1 "2/text/9" "2/text/20" (Or.inl (by decide))⟩

/-- C10: in the race-recovery branch a failing ownership-link insert is
silently ignored — the handler answers 200 with duplicate = true whether the
insert succeeded or failed (leaving the link row absent on failure) — whereas
the ordinary duplicate path answers 500 when its link insert fails. -/
theorem race_link_ignored_c10 :
    (∀ userId (file : FileData) newId (db : Db) (e eLink : DbError) (rb : Book),
       fileTypeOk file = true →
       e.code = "23505" →
       db.books.filter (fun b => b.file_checksum == sha256Hex file.bytes) = [] →
       db.user_books.filter (fun l => l.user_id == userId && l.book_id == rb.id) = [] →
       POST (some userId) (some file) newId
           { bookInsertFault := some e, raceLookupData := some (some rb),
             raceLinkInsertFault := some eLink } db
         = (.success rb.id true "Book already exists and has been added to your library", db)
       ∧ POST (some userId) (some file) newId
           { bookInsertFault := some e, raceLookupData := some (some rb) } db
         = (.success rb.id true "Book already exists and has been added to your library",
            { db with user_books := db.user_books ++ [⟨userId, rb.id⟩] }))
  ∧ (∀ userId (file : FileData) newId (db : Db) (eLink : DbError) (b : Book),
       fileTypeOk file = true →
       db.books.filter (fun x => x.file_checksum == sha256Hex file.bytes) = [b] →
       db.user_books.filter (fun l => l.user_id == userId && l.book_id == b.id) = [] →
       POST (some userId) (some file) newId { linkInsertFault := some eLink } db
         = (.serverError "Failed to link book to user" eLink.message none none, db)) := by
  constructor
  · intro userId file newId db e eLink rb hv hcode hdup hlink
    constructor
    · simp [POST, hv, ingest, hdup, selectSingle, createNewBook, hcode,
        uniqueViolationCode, singleData, hlink]
    · simp [POST, hv, ingest, hdup, selectSingle, createNewBook, hcode,
        uniqueViolationCode, singleData, hlink]
  · intro userId file newId db eLink b hv hdup hlink
    simp [POST, hv, ingest, hdup, selectSingle, linkDuplicate, singleData, hlink]

/-- Witness for C10: a concrete race-recovery upload succeeds although its
link insert fails, while the same link failure on the ordinary duplicate path
yields a 500. -/
theorem race_link_ignored_c10_witness :
    (POST (some "u1") (some ⟨"a.epub", "application/epub+zip", []⟩) "id9"
        { bookInsertFault := some ⟨"23505", "duplicate key", "", ""⟩,
          raceLookupData := some (some ⟨"idX", "T", 0, "c", "u0", "p", "f", none⟩),
          raceLinkInsertFault := some ⟨"XX000", "insert failed", "", ""⟩ }
        ⟨[], [], []⟩
      = (.success "idX" true "Book already exists and has been added to your library",
         ⟨[], [], []⟩))
  ∧ (POST (some "u1") (some ⟨"a.epub", "application/epub+zip", []⟩) "id9"
        { linkInsertFault := some ⟨"XX000", "insert failed", "", ""⟩ }
        ⟨[⟨"idX", "T", 0, sha256Hex [], "u0", "p", "f", none⟩], [], []⟩
      = (.serverError "Failed to link book to user" "insert failed" none none,
         ⟨[⟨"idX", "T", 0, sha256Hex [], "u0", "p", "f", none⟩], [], []⟩)) :=
  ⟨(race_link_ignored_c10.1 "u1" ⟨"a.epub", "application/epub+zip", []⟩ "id9" ⟨[], [], []⟩
      ⟨"23505", "duplicate key", "", ""⟩ ⟨"XX000", "insert failed", "", ""⟩
      ⟨"idX", "T", 0, "c", "u0", "p", "f", none⟩ (by decide) rfl rfl rfl).1,
   race_link_ignored_c10.2 "u1" ⟨"a.epub", "application/epub+zip", []⟩ "id9"
      ⟨[⟨"idX", "T", 0, sha256Hex [], "u0", "p", "f", none⟩], [], []⟩
      ⟨"XX000", "insert failed", "", ""⟩ ⟨"idX", "T", 0, sha256Hex [], "u0", "p", "f", none⟩
      (by decide) (by simp) rfl⟩

/-- C1: when the Content Record insert fails with the unique-violation code
(the fingerprint constraint lost a race and the re-resolve by fingerprint
sees the winning row), the handler takes the duplicate path: it answers 200
with duplicate = true and the resolved id, and inserts an ownership link only
when the pre-insert check finds none; for an insert failure with any other
code it answers 500 and the state is unchanged — no partial state exists. -/
theorem insert_race_c1 :
    ∀ userId (file : FileData) newId (beh : Behavior) (db : Db) (e : DbError),
      fileTypeOk file = true →
      beh.dupLookupFault = none →
      db.books.filter (fun b => b.file_checksum == sha256Hex file.bytes) = [] →
      beh.bookInsertFault = some e →
      ((∀ rb : Book, e.code = "23505" → beh.raceLookupData = some (some rb) →
          (POST (some userId) (some file) newId beh db).1
            = .success rb.id true "Book already exists and has been added to your library"
          ∧ (beh.raceLinkLookupFault = none →
              (∀ l, db.user_books.filter
                      (fun x => x.user_id == userId && x.book_id == rb.id) = [l] →
                 (POST (some userId) (some file) newId beh db).2 = db)
              ∧ (db.user_books.filter
                      (fun x => x.user_id == userId && x.book_id == rb.id) = [] →
                 beh.raceLinkInsertFault = none →
                 (POST (some userId) (some file) newId beh db).2
                   = { db with user_books := db.user_books ++ [⟨userId, rb.id⟩] })))
       ∧ (e.code ≠ "23505" →
          POST (some userId) (some file) newId beh db
            = (.serverError "Failed to create book record" e.message
                 (some e.code) (some e.hint), db)
          ∧ (POST (some userId) (some file) newId beh db).1.status = 500)) := by
  intro userId file newId beh db e hv hnodup hfilter hfault
  constructor
  · intro rb hcode hrace
    refine ⟨?_, ?_⟩
    · simp [POST, hv, ingest, hnodup, hfilter, selectSingle, createNewBook, hfault,
        hcode, uniqueViolationCode, hrace]
    · intro hnolf
      constructor
      · intro l hl
        simp [POST, hv, ingest, hnodup, hfilter, selectSingle, createNewBook, hfault,
          hcode, uniqueViolationCode, hrace, hnolf, singleData, hl]
      · intro hl hnoins
        simp [POST, hv, ingest, hnodup, hfilter, selectSingle, createNewBook, hfault,
          hcode, uniqueViolationCode, hrace, hnolf, singleData, hl, hnoins]
  · intro hcode
    have hne : (e.code == uniqueViolationCode) = false := by
      simpa [uniqueViolationCode] using beq_eq_false_iff_ne.mpr hcode
    constructor
    · simp [POST, hv, ingest, hnodup, hfilter, selectSingle, createNewBook, hfault, hne]
    · simp [POST, hv, ingest, hnodup, hfilter, selectSingle, createNewBook, hfault, hne,
        UploadResponse.status]

/-- Witness for C1: a concrete 23505 race recovers as a duplicate and links
the user, while a concrete foreign-key failure returns 500 untouched. -/
theorem insert_race_c1_witness :
    ((POST (some "u1") (some ⟨"a.epub", "application/epub+zip", []⟩) "id9"
        { bookInsertFault := some ⟨"23505", "duplicate key", "", ""⟩,
          raceLookupData := some (some ⟨"idX", "T", 0, "c", "u0", "p", "f", none⟩) }
        ⟨[], [], []⟩).1
      = .success "idX" true "Book already exists and has been added to your library")
  ∧ (POST (some "u1") (some ⟨"a.epub", "application/epub+zip", []⟩) "id9"
        { bookInsertFault := some ⟨"23503", "foreign key violation", "", "check it"⟩ }
        ⟨[], [], []⟩
      = (.serverError "Failed to create book record" "foreign key violation"
           (some "23503") (some "check it"), ⟨[], [], []⟩)) :=
  ⟨((insert_race_c1 "u1" ⟨"a.epub", "application/epub+zip", []⟩ "id9"
      { bookInsertFault := some ⟨"23505", "duplicate key", "", ""⟩,
        raceLookupData := some (some ⟨"idX", "T", 0, "c", "u0", "p", "f", none⟩) }
      ⟨[], [], []⟩ ⟨"23505", "duplicate key", "", ""⟩
      (by decide) rfl rfl rfl).1 ⟨"idX", "T", 0, "c", "u0", "p", "f", none⟩ rfl rfl).1,
   ((insert_race_c1 "u1" ⟨"a.epub", "application/epub+zip", []⟩ "id9"
      { bookInsertFault := some ⟨"23503", "foreign key violation", "", "check it"⟩ }
      ⟨[], [], []⟩ ⟨"23503", "foreign key violation", "", "check it"⟩
      (by decide) rfl rfl rfl).2 (by decide)).1⟩

/-- Removing an element just appended restores a list in which every element
passes the removal filter. -/
theorem filter_restore {α : Type} (p : α → Bool) (l : List α) (x : α)
    (h : ∀ a ∈ l, p a = true) (hx : p x = false) : (l ++ [x]).filter p = l := by
  rw [List.filter_append, List.filter_eq_self.mpr h]
  simp [hx]

/-- C3: on a non-duplicate upload, a binary-storage failure after the record
insert makes the handler delete the record it just created and answer 500
with the backend state exactly as before the request; an ownership-link
failure after the storage write makes it delete both the record and the
uploaded object and answer 500, again leaving the state exactly as before. -/
theorem compensation_c3 :
    ∀ userId (file : FileData) newId (beh : Behavior) (db : Db) (e : DbError),
      fileTypeOk file = true →
      beh.dupLookupFault = none →
      beh.bookInsertFault = none →
      db.books.filter (fun b => b.file_checksum == sha256Hex file.bytes) = [] →
      db.books.any (fun b => b.id == newId || b.file_checksum == sha256Hex file.bytes)
        = false →
      ((beh.storageFault = some e →
          POST (some userId) (some file) newId beh db
            = (.serverError "Failed to upload file to storage" e.message none none, db))
       ∧ (beh.storageFault = none →
          db.objects.any (fun p => p == storagePathFor userId newId) = false →
          beh.newLinkInsertFault = some e →
          POST (some userId) (some file) newId beh db
            = (.serverError "Failed to link book to user" e.message none none, db))) := by
  intro userId file newId beh db e hv hnodup hnoins hfilter hany
  have hkey : ∀ b ∈ db.books, (!(b.id == newId)) = true := by
    intro b hb
    have h1 := List.any_eq_false.mp hany b hb
    simp only [Bool.or_eq_true, beq_iff_eq, not_or] at h1
    simp [h1.1]
  have hfix : db.books.filter (fun b => !(b.id == newId)) = db.books :=
    List.filter_eq_self.mpr hkey
  constructor
  · intro hsf
    simp [POST, hv, ingest, hnodup, hfilter, selectSingle, createNewBook, hnoins,
      hany, hsf, hfix]
  · intro hsf hobj hlf
    have hokey : ∀ p ∈ db.objects, (!(p == storagePathFor userId newId)) = true := by
      intro p hp
      have h1 := List.any_eq_false.mp hobj p hp
      simp only [beq_iff_eq] at h1
      simp [h1]
    have hofix :
        db.objects.filter (fun p => !(p == storagePathFor userId newId)) = db.objects :=
      List.filter_eq_self.mpr hokey
    simp [POST, hv, ingest, hnodup, hfilter, selectSingle, createNewBook, hnoins,
      hany, hsf, hobj, hlf, hfix, hofix]

/-- Witness for C3: both compensation paths at a concrete upload over an
empty backend. -/
theorem compensation_c3_witness :
    (POST (some "u1") (some ⟨"a.epub", "application/epub+zip", [1, 2]⟩) "id9"
        { storageFault := some ⟨"", "storage down", "", ""⟩ } ⟨[], [], []⟩
      = (.serverError "Failed to upload file to storage" "storage down" none none,
         ⟨[], [], []⟩))
  ∧ (POST (some "u1") (some ⟨"a.epub", "application/epub+zip", [1, 2]⟩) "id9"
        { newLinkInsertFault := some ⟨"XX000", "link down", "", ""⟩ } ⟨[], [], []⟩
      = (.serverError "Failed to link book to user" "link down" none none,
         ⟨[], [], []⟩)) :=
  ⟨(compensation_c3 "u1" ⟨"a.epub", "application/epub+zip", [1, 2]⟩ "id9"
      { storageFault := some ⟨"", "storage down", "", ""⟩ } ⟨[], [], []⟩
      ⟨"", "storage down", "", ""⟩ (by decide) rfl rfl rfl rfl).1 rfl,
   (compensation_c3 "u1" ⟨"a.epub", "application/epub+zip", [1, 2]⟩ "id9"
      { newLinkInsertFault := some ⟨"XX000", "link down", "", ""⟩ } ⟨[], [], []⟩
      ⟨"XX000", "link down", "", ""⟩ (by decide) rfl rfl rfl rfl).2 rfl rfl rfl⟩

/-- C2: an upload whose fingerprint matches an existing Content Record (with
backend operations behaving normally) answers 200 with duplicate = true and
the existing id, leaves the books table and the storage bucket untouched, and
inserts an ownership link exactly when the pre-insert check finds none;
consequently two different users uploading identical bytes end with
duplicate = true for the second, one Content Record and two Ownership Links. -/
theorem duplicate_upload_c2 :
    (∀ userId (file : FileData) newId (db : Db) (b : Book),
       fileTypeOk file = true →
       db.books.filter (fun x => x.file_checksum == sha256Hex file.bytes) = [b] →
       (POST (some userId) (some file) newId Behavior.none db).1
         = .success b.id true "Book already exists and has been added to your library"
       ∧ (POST (some userId) (some file) newId Behavior.none db).2.books = db.books
       ∧ (POST (some userId) (some file) newId Behavior.none db).2.objects = db.objects
       ∧ (∀ l, db.user_books.filter
                 (fun l => l.user_id == userId && l.book_id == b.id) = [l] →
            (POST (some userId) (some file) newId Behavior.none db).2 = db)
       ∧ (db.user_books.filter (fun l => l.user_id == userId && l.book_id == b.id) = [] →
            (POST (some userId) (some file) newId Behavior.none db).2
              = { db with user_books := db.user_books ++ [⟨userId, b.id⟩] }))
  ∧ (∀ bytes : List Nat,
       (POST (some "bob") (some ⟨"book.epub", "application/epub+zip", bytes⟩) "id-2"
          Behavior.none
          (POST (some "alice") (some ⟨"book.epub", "application/epub+zip", bytes⟩) "id-1"
             Behavior.none ⟨[], [], []⟩).2).1
         = .success "id-1" true "Book already exists and has been added to your library"
       ∧ (POST (some "bob") (some ⟨"book.epub", "application/epub+zip", bytes⟩) "id-2"
            Behavior.none
            (POST (some "alice") (some ⟨"book.epub", "application/epub+zip", bytes⟩) "id-1"
               Behavior.none ⟨[], [], []⟩).2).2.books.length = 1
       ∧ (POST (some "bob") (some ⟨"book.epub", "application/epub+zip", bytes⟩) "id-2"
            Behavior.none
            (POST (some "alice") (some ⟨"book.epub", "application/epub+zip", bytes⟩) "id-1"
               Behavior.none ⟨[], [], []⟩).2).2.user_books
         = [⟨"alice", "id-1"⟩, ⟨"bob", "id-1"⟩]) := by
  constructor
  · intro userId file newId db b hv hdup
    refine ⟨?_, ?_, ?_, ?_, ?_⟩
    · cases hl : db.user_books.filter (fun l => l.user_id == userId && l.book_id == b.id) with
      | nil =>
          simp [POST, hv, ingest, hdup, selectSingle, linkDuplicate, Behavior.none,
            singleData, hl]
      | cons x xs =>
          cases xs with
          | nil =>
              simp [POST, hv, ingest, hdup, selectSingle, linkDuplicate, Behavior.none,
                singleData, hl]
          | cons y ys =>
              simp [POST, hv, ingest, hdup, selectSingle, linkDuplicate, Behavior.none,
                singleData, hl]
    · cases hl : db.user_books.filter (fun l => l.user_id == userId && l.book_id == b.id) with
      | nil =>
          simp [POST, hv, ingest, hdup, selectSingle, linkDuplicate, Behavior.none,
            singleData, hl]
      | cons x xs =>
          cases xs with
          | nil =>
              simp [POST, hv, ingest, hdup, selectSingle, linkDuplicate, Behavior.none,
                singleData, hl]
          | cons y ys =>
              simp [POST, hv, ingest, hdup, selectSingle, linkDuplicate, Behavior.none,
                singleData, hl]
    · cases hl : db.user_books.filter (fun l => l.user_id == userId && l.book_id == b.id) with
      | nil =>
          simp [POST, hv, ingest, hdup, selectSingle, linkDuplicate, Behavior.none,
            singleData, hl]
      | cons x xs =>
          cases xs with
          | nil =>
              simp [POST, hv, ingest, hdup, selectSingle, linkDuplicate, Behavior.none,
                singleData, hl]
          | cons y ys =>
              simp [POST, hv, ingest, hdup, selectSingle, linkDuplicate, Behavior.none,
                singleData, hl]
    · intro l hl
      simp [POST, hv, ingest, hdup, selectSingle, linkDuplicate, Behavior.none,
        singleData, hl]
    · intro hl
      simp [POST, hv, ingest, hdup, selectSingle, linkDuplicate, Behavior.none,
        singleData, hl]
  · intro bytes
    have h1 :
        (POST (some "alice") (some ⟨"book.epub", "application/epub+zip", bytes⟩) "id-1"
          Behavior.none ⟨[], [], []⟩).2
        = ⟨[{ id := "id-1", title := stripEpubSuffix "book.epub",
              file_size := bytes.length, file_checksum := sha256Hex bytes,
              uploaded_by := "alice", storage_path := storagePathFor "alice" "id-1",
              file_name := "book.epub", readium_manifest_path := none }],
           [⟨"alice", "id-1"⟩], [storagePathFor "alice" "id-1"]⟩ := by
      simp [POST, fileTypeOk, ingest, Behavior.none, selectSingle, createNewBook]
    rw [h1]
    refine ⟨?_, ?_, ?_⟩ <;>
      simp [POST, fileTypeOk, ingest, Behavior.none, selectSingle, linkDuplicate,
        singleData]

/-- Witness for C2: a duplicate upload by a second user over a one-book
backend, applied at a concrete file. -/
theorem duplicate_upload_c2_witness :
    (POST (some "bob") (some ⟨"book.epub", "application/epub+zip", [7]⟩) "id-2"
        Behavior.none
        ⟨[{ id := "id-1", title := "book", file_size := 1,
            file_checksum := sha256Hex [7], uploaded_by := "alice",
            storage_path := "books/alice/id-1.epub", file_name := "book.epub",
            readium_manifest_path := none }], [⟨"alice", "id-1"⟩], []⟩).1
      = .success "id-1" true "Book already exists and has been added to your library" :=
  (duplicate_upload_c2.1 "bob" ⟨"book.epub", "application/epub+zip", [7]⟩ "id-2"
    ⟨[{ id := "id-1", title := "book", file_size := 1,
        file_checksum := sha256Hex [7], uploaded_by := "alice",
        storage_path := "books/alice/id-1.epub", file_name := "book.epub",
        readium_manifest_path := none }], [⟨"alice", "id-1"⟩], []⟩
    { id := "id-1", title := "book", file_size := 1,
      file_checksum := sha256Hex [7], uploaded_by := "alice",
      storage_path := "books/alice/id-1.epub", file_name := "book.epub",
      readium_manifest_path := none }
    (by decide) (by simp)).1

set_option maxHeartbeats 1000000 in
set_option maxRecDepth 10000 in
/-- Every byte renders as exactly two lowercase hex digits. -/
theorem hexByte_ok :
    ∀ b < 256, (hexByte b).length = 2 ∧ ∀ c ∈ hexByte b, c ∈ lowercaseHexDigits := by
  decide

/-- The big-endian bytes of a word are below 256. -/
theorem wordBytes_lt (w : Nat) : ∀ x ∈ wordBytes w, x < 256 := by
  intro x hx
  simp only [wordBytes, List.mem_cons, List.not_mem_nil, or_false] at hx
  rcases hx with h | h | h | h <;> subst h <;> exact Nat.mod_lt _ (by norm_num)

/-- The SHA-256 digest consists of 32 bytes. -/
theorem sha256Bytes_length (msg : List Nat) : (sha256Bytes msg).length = 32 := by
  simp [sha256Bytes, wordBytes]

/-- Every digest byte is below 256. -/
theorem sha256Bytes_lt (msg : List Nat) : ∀ x ∈ sha256Bytes msg, x < 256 := by
  intro x hx
  simp only [sha256Bytes, List.mem_append] at hx
  rcases hx with ((((((h | h) | h) | h) | h) | h) | h) | h <;> exact wordBytes_lt _ x h

/-- Hex rendering of a byte list: twice as many characters, all of them
lowercase hex digits. -/
theorem flatMap_hexByte_ok (l : List Nat) (h : ∀ b ∈ l, b < 256) :
    (l.flatMap hexByte).length = 2 * l.length
    ∧ ∀ c ∈ l.flatMap hexByte, c ∈ lowercaseHexDigits := by
  induction l with
  | nil => simp
  | cons b rest ih =>
      have hb := hexByte_ok b (h b (by simp))
      have hrest := ih (fun x hx => h x (by simp [hx]))
      constructor
      · simp only [List.flatMap_cons, List.length_append, hb.1, hrest.1,
          List.length_cons]
        ring
      · intro c hc
        simp only [List.flatMap_cons, List.mem_append] at hc
        rcases hc with hc | hc
        · exact hb.2 c hc
        · exact hrest.2 c hc

/-- C6: the fingerprint is a pure deterministic function of the complete byte
buffer, rendered as exactly 64 lowercase hex characters (two zero-padded
digits per digest byte of the 256-bit hash); and the duplicate decision of
the ingestion body is keyed on precisely this full-buffer digest — an empty
match continues on the creation path and a single match on the duplicate
path. -/
theorem fingerprint_c6 :
    (∀ b1 b2 : List Nat, b1 = b2 → sha256Hex b1 = sha256Hex b2)
  ∧ (∀ bytes : List Nat, (sha256Hex bytes).length = 64
       ∧ ∀ c ∈ (sha256Hex bytes).data, c ∈ lowercaseHexDigits)
  ∧ (∀ userId (file : FileData) newId (beh : Behavior) (db : Db),
       beh.dupLookupFault = none →
       ((db.books.filter (fun b => b.file_checksum == sha256Hex file.bytes) = [] →
           ingest userId file newId beh db
             = createNewBook userId file (sha256Hex file.bytes) newId beh db)
        ∧ (∀ b, db.books.filter (fun x => x.file_checksum == sha256Hex file.bytes) = [b] →
           ingest userId file newId beh db = linkDuplicate userId b beh db))) := by
  refine ⟨fun b1 b2 h => by rw [h], ?_, ?_⟩
  · intro bytes
    have h := flatMap_hexByte_ok (sha256Bytes bytes) (sha256Bytes_lt bytes)
    constructor
    · show ((sha256Bytes bytes).flatMap hexByte).length = 64
      rw [h.1, sha256Bytes_length]
    · exact h.2
  · intro userId file newId beh db hnodup
    constructor
    · intro hfilter
      simp [ingest, hnodup, hfilter, selectSingle]
    · intro b hfilter
      simp [ingest, hnodup, hfilter, selectSingle]

/-- Witness for C6: determinism and branch selection applied at the empty
buffer over an empty backend. -/
theorem fingerprint_c6_witness :
    sha256Hex [] = sha256Hex []
  ∧ (ingest "u1" ⟨"a.epub", "application/epub+zip", []⟩ "id1" Behavior.none ⟨[], [], []⟩
      = createNewBook "u1" ⟨"a.epub", "application/epub+zip", []⟩ (sha256Hex []) "id1"
          Behavior.none ⟨[], [], []⟩) :=
  ⟨fingerprint_c6.1 [] [] rfl,
   (fingerprint_c6.2.2 "u1" ⟨"a.epub", "application/epub+zip", []⟩ "id1"
      Behavior.none ⟨[], [], []⟩ rfl).1 rfl⟩

namespace ChatStream

/-- The default of getLastD is irrelevant on a nonempty list. -/
theorem getLastD_irrel {α : Type} (y : α) (ys : List α) (d1 d2 : α) :
    (y :: ys).getLastD d1 = (y :: ys).getLastD d2 := by
  cases hys : (y :: ys).getLast? with
  | none => simp at hys
  | some z => simp [List.getLastD_eq_getLast?, hys]

/-- getLastD looks only at the nonempty tail of an append. -/
theorem getLastD_app {α : Type} (l : List α) (y : α) (ys : List α) (d : α) :
    (l ++ y :: ys).getLastD d = (y :: ys).getLastD d := by
  induction l generalizing d with
  | nil => rfl
  | cons a l ih =>
      rw [List.cons_append, List.getLastD_cons, ih]
      exact getLastD_irrel y ys a d

/-- dropLast distributes over a two-or-more-element cons. -/
theorem dropLast_cons2 {α : Type} (p q : α) (l : List α) :
    (p :: q :: l).dropLast = p :: (q :: l).dropLast := rfl

/-- splitNl never returns the empty list. -/
theorem splitNl_ne_nil (l : List Char) : splitNl l ≠ [] := by
  induction l with
  | nil => simp [splitNl]
  | cons c rest ih =>
      by_cases hc : c = '\n'
      · subst hc; simp [splitNl]
      · cases hr : splitNl rest with
        | nil => simp [splitNl, hc, hr]
        | cons a as => simp [splitNl, hc, hr]

/-- Unfolding splitNl at a newline. -/
theorem splitNl_cons_nl (rest : List Char) :
    splitNl ('\n' :: rest) = [] :: splitNl rest := by
  simp [splitNl]

/-- Unfolding splitNl at an ordinary character. -/
theorem splitNl_cons (c : Char) (rest : List Char) (hc : ¬ c = '\n')
    (a : List Char) (as : List (List Char)) (hr : splitNl rest = a :: as) :
    splitNl (c :: rest) = (c :: a) :: as := by
  simp [splitNl, hc, hr]

/-- A newline-free list splits into itself alone. -/
theorem splitNl_eq_single (l : List Char) (h : ∀ c ∈ l, c ≠ '\n') :
    splitNl l = [l] := by
  induction l with
  | nil => rfl
  | cons c rest ih =>
      have hc : ¬ c = '\n' := h c (by simp)
      have hr := ih (fun x hx => h x (by simp [hx]))
      rw [splitNl_cons c rest hc rest [] hr]

/-- getLastD of a singleton. -/
theorem getLastD_single {α : Type} (z d : α) : ([z]).getLastD d = z := rfl

/-- The trailing element of a split never contains a newline. -/
theorem newline_not_in_last (l : List Char) :
    ∀ c ∈ (splitNl l).getLastD [], c ≠ '\n' := by
  induction l with
  | nil => simp [splitNl]
  | cons c rest ih =>
      by_cases hc : c = '\n'
      · subst hc
        cases hr : splitNl rest with
        | nil => exact absurd hr (splitNl_ne_nil rest)
        | cons a as =>
            rw [splitNl_cons_nl, hr]
            rw [hr] at ih
            intro x hx
            refine ih x ?_
            rwa [List.getLastD_cons] at hx
      · cases hr : splitNl rest with
        | nil => exact absurd hr (splitNl_ne_nil rest)
        | cons a as =>
            rw [splitNl_cons c rest hc a as hr]
            rw [hr] at ih
            cases as with
            | nil =>
                intro x hx
                rw [getLastD_single] at hx
                rw [getLastD_single] at ih
                rcases List.mem_cons.mp hx with h | h
                · subst h; exact hc
                · exact ih x h
            | cons b bs =>
                intro x hx
                rw [List.getLastD_cons] at hx ih
                refine ih x ?_
                rwa [getLastD_irrel b bs (c :: a) a] at hx

/-- Decomposition of a split across an append: the left split minus its last
element, then the carry-over line merged with the head of the right split. -/
theorem splitNl_append (x y : List Char) :
    splitNl (x ++ y) =
      (splitNl x).dropLast
        ++ ((splitNl x).getLastD [] ++ (splitNl y).headD []) :: (splitNl y).tail := by
  induction x with
  | nil =>
      cases hy : splitNl y with
      | nil => exact absurd hy (splitNl_ne_nil y)
      | cons t ts => simp [splitNl, hy]
  | cons c rest ih =>
      cases hy : splitNl y with
      | nil => exact absurd hy (splitNl_ne_nil y)
      | cons t ts =>
      rw [hy] at ih
      cases hr : splitNl rest with
      | nil => exact absurd hr (splitNl_ne_nil rest)
      | cons a as =>
      rw [hr] at ih
      by_cases hc : c = '\n'
      · subst hc
        rw [List.cons_append, splitNl_cons_nl (rest ++ y), ih, splitNl_cons_nl rest, hr]
        simp [dropLast_cons2, List.getLastD_cons, List.cons_append]
      · cases as with
        | nil =>
            have ih2 : splitNl (rest ++ y) = (a ++ t) :: ts := by
              simpa using ih
            rw [List.cons_append, splitNl_cons c (rest ++ y) hc (a ++ t) ts ih2,
              splitNl_cons c rest hc a [] hr]
            simp
        | cons b bs =>
            have ih2 : splitNl (rest ++ y)
                = a :: ((b :: bs).dropLast ++ (bs.getLastD b ++ t) :: ts) := by
              rw [ih]
              simp only [dropLast_cons2, List.getLastD_cons, List.headD_cons,
                List.tail_cons, List.cons_append]
            rw [List.cons_append,
              splitNl_cons c (rest ++ y) hc a
                ((b :: bs).dropLast ++ (bs.getLastD b ++ t) :: ts) ih2,
              splitNl_cons c rest hc a (b :: bs) hr]
            simp only [dropLast_cons2, List.getLastD_cons, List.headD_cons,
              List.tail_cons, List.cons_append]

/-- A finished state ignores further lines. -/
theorem procLine_finished (parse : List Char → Option ParsedChunk) (st : StreamState)
    (line : List Char) (h : st.finished = true) : procLine parse st line = st := by
  simp [procLine, h]

/-- A finished state ignores any remaining list of lines. -/
theorem foldl_procLine_finished (parse : List Char → Option ParsedChunk)
    (lines : List (List Char)) (st : StreamState) (h : st.finished = true) :
    lines.foldl (procLine parse) st = st := by
  induction lines with
  | nil => rfl
  | cons line rest ih => rw [List.foldl_cons, procLine_finished parse st line h]; exact ih

/-- Closed form of procLine on an unfinished state: a data-marked [DONE] line
finishes (ending the loading state), any other data-marked line appends its
content fragment, every other line is ignored. -/
theorem procLine_eq (parse : List Char → Option ParsedChunk) (st : StreamState)
    (line : List Char) (h : st.finished = false) :
    procLine parse st line =
      if dataMarker.isPrefixOf line then
        (if line.drop 6 = doneSentinel then
          { st with finished := true, loadingEnds := st.loadingEnds + 1, buffer := [] }
         else { st with message := st.message ++ contentOf parse (line.drop 6) })
      else st := by
  obtain ⟨bf, ms, le, fin⟩ := st
  have hf : fin = false := h
  subst hf
  by_cases hp : dataMarker.isPrefixOf line
  · by_cases hd : line.drop 6 = doneSentinel
    · simp [procLine, hp, hd]
    · cases hpr : parse (line.drop 6) with
      | none => simp [procLine, contentOf, hp, hd, hpr]
      | some p =>
          cases hc : p.content with
          | none => simp [procLine, contentOf, hp, hd, hpr, hc]
          | some c =>
              cases c with
              | nil => simp [procLine, contentOf, hp, hd, hpr, hc]
              | cons z zs => simp [procLine, contentOf, hp, hd, hpr, hc]
  · simp [procLine, hp]

/-- Feeding a chunk to a finished state does nothing. -/
theorem feedChunk_finished (parse : List Char → Option ParsedChunk) (st : StreamState)
    (chunk : List Char) (h : st.finished = true) : feedChunk parse st chunk = st := by
  simp [feedChunk, h]

/-- Closed form of feedChunk on an unfinished state. -/
theorem feedChunk_eq (parse : List Char → Option ParsedChunk) (st : StreamState)
    (chunk : List Char) (h : st.finished = false) :
    feedChunk parse st chunk =
      (splitNl (st.buffer ++ chunk)).dropLast.foldl (procLine parse)
        { st with buffer := (splitNl (st.buffer ++ chunk)).getLastD [] } := by
  simp [feedChunk, h]

/-- The initial buffer only matters for the final carry-over: with any other
initial buffer the fold reaches the same state up to that buffer, which is
in turn dropped when a [DONE] line finishes the stream. -/
theorem foldl_procLine_buffer (parse : List Char → Option ParsedChunk)
    (lines : List (List Char)) :
    ∀ (st : StreamState) (b : List Char), st.finished = false →
      lines.foldl (procLine parse) { st with buffer := b } =
        if (lines.foldl (procLine parse) st).finished then lines.foldl (procLine parse) st
        else { lines.foldl (procLine parse) st with buffer := b } := by
  induction lines with
  | nil =>
      intro st b h
      simp [h]
  | cons line rest ih =>
      intro st b h
      have hstep : procLine parse { st with buffer := b } line =
          if (procLine parse st line).finished then procLine parse st line
          else { procLine parse st line with buffer := b } := by
        rw [procLine_eq parse st line h, procLine_eq parse { st with buffer := b } line h]
        by_cases hp : dataMarker.isPrefixOf line
        · by_cases hd : line.drop 6 = doneSentinel
          · simp [hp, hd]
          · simp [hp, hd, h]
        · simp [hp, h]
      rw [List.foldl_cons, List.foldl_cons, hstep]
      by_cases hf : (procLine parse st line).finished = true
      · rw [if_pos hf, foldl_procLine_finished parse rest _ hf, if_pos hf]
      · have hf0 : (procLine parse st line).finished = false := by simpa using hf
        rw [if_neg hf, ih (procLine parse st line) b hf0]

/-- The buffer after a fold is the initial buffer or empty. -/
theorem foldl_procLine_buffer_cases (parse : List Char → Option ParsedChunk)
    (lines : List (List Char)) :
    ∀ st : StreamState, (lines.foldl (procLine parse) st).buffer = st.buffer
      ∨ (lines.foldl (procLine parse) st).buffer = [] := by
  induction lines with
  | nil => intro st; left; rfl
  | cons line rest ih =>
      intro st
      rw [List.foldl_cons]
      rcases ih (procLine parse st line) with h | h
      · rw [h]
        by_cases hfin : st.finished = true
        · left; rw [procLine_finished parse st line hfin]
        · have h0 : st.finished = false := by simpa using hfin
          rw [procLine_eq parse st line h0]
          by_cases hp : dataMarker.isPrefixOf line
          · by_cases hd : line.drop 6 = doneSentinel
            · right; simp [hp, hd]
            · left; simp [hp, hd]
          · left; simp [hp]
      · right; exact h

/-- Closed form of a fold over complete lines: the message grows by exactly
the expected concatenation of content fragments, and the loading state is
ended exactly once when a [DONE] line was reached and not otherwise. -/
theorem foldl_procLine_message (parse : List Char → Option ParsedChunk)
    (lines : List (List Char)) :
    ∀ st : StreamState, st.finished = false →
      (lines.foldl (procLine parse) st).message = st.message ++ expectedMessage parse lines
      ∧ ((lines.foldl (procLine parse) st).finished = true →
           (lines.foldl (procLine parse) st).loadingEnds = st.loadingEnds + 1)
      ∧ ((lines.foldl (procLine parse) st).finished = false →
           (lines.foldl (procLine parse) st).loadingEnds = st.loadingEnds) := by
  induction lines with
  | nil =>
      intro st h
      refine ⟨by simp [expectedMessage], ?_, fun _ => rfl⟩
      intro hf
      rw [List.foldl_nil] at hf
      rw [h] at hf
      cases hf
  | cons line rest ih =>
      intro st h
      rw [List.foldl_cons, procLine_eq parse st line h]
      by_cases hp : dataMarker.isPrefixOf line
      · by_cases hd : line.drop 6 = doneSentinel
        · rw [if_pos hp, if_pos hd, foldl_procLine_finished parse rest _ (by simp)]
          refine ⟨by simp [expectedMessage, hp, hd], fun _ => by simp, ?_⟩
          intro hf
          simp at hf
        · rw [if_pos hp, if_neg hd]
          have h2 := ih { st with message := st.message ++ contentOf parse (line.drop 6) }
            (by simpa using h)
          refine ⟨?_, ?_, ?_⟩
          · rw [h2.1]; simp [expectedMessage, hp, hd, List.append_assoc]
          · intro hf; rw [h2.2.1 hf]
          · intro hf; rw [h2.2.2 hf]
      · rw [if_neg hp]
        have h2 := ih st h
        refine ⟨?_, h2.2.1, h2.2.2⟩
        rw [h2.1]
        simp [expectedMessage, hp]

/-- Splitting the incoming bytes at any chunk boundary does not change the
state the handler reaches: feeding a concatenation equals feeding its parts
in order. -/
theorem feedChunk_append (parse : List Char → Option ParsedChunk) (st : StreamState)
    (a b : List Char) :
    feedChunk parse st (a ++ b) = feedChunk parse (feedChunk parse st a) b := by
  by_cases hfin : st.finished = true
  · rw [feedChunk_finished parse st (a ++ b) hfin, feedChunk_finished parse st a hfin,
      feedChunk_finished parse st b hfin]
  · have hf0 : st.finished = false := by simpa using hfin
    cases hy : splitNl b with
    | nil => exact absurd hy (splitNl_ne_nil b)
    | cons t ts =>
    cases hS : splitNl (st.buffer ++ a) with
    | nil => exact absurd hS (splitNl_ne_nil _)
    | cons s ss =>
    have hlast : ∀ c ∈ (s :: ss).getLastD [], c ≠ '\n' := by
      rw [← hS]; exact newline_not_in_last (st.buffer ++ a)
    have hSapp : splitNl (st.buffer ++ (a ++ b))
        = (s :: ss).dropLast ++ ((s :: ss).getLastD [] ++ t) :: ts := by
      rw [← List.append_assoc, splitNl_append (st.buffer ++ a) b, hS, hy]
      simp only [List.headD_cons, List.tail_cons]
    have hA : feedChunk parse st a
        = (s :: ss).dropLast.foldl (procLine parse)
            { st with buffer := (s :: ss).getLastD [] } := by
      rw [feedChunk_eq parse st a hf0, hS]
    have hbufeq := foldl_procLine_buffer parse ((s :: ss).dropLast) st
        ((s :: ss).getLastD []) hf0
    have hbufeq2 := foldl_procLine_buffer parse ((s :: ss).dropLast) st
        ((((s :: ss).getLastD [] ++ t) :: ts).getLastD []) hf0
    have hLHS : feedChunk parse st (a ++ b)
        = (((s :: ss).getLastD [] ++ t) :: ts).dropLast.foldl (procLine parse)
            (((s :: ss).dropLast).foldl (procLine parse)
              { st with buffer := (((s :: ss).getLastD [] ++ t) :: ts).getLastD [] }) := by
      rw [feedChunk_eq parse st (a ++ b) hf0, hSapp, List.dropLast_append_cons,
        getLastD_app, List.foldl_append]
    by_cases hF0 : ((s :: ss).dropLast.foldl (procLine parse) st).finished = true
    · rw [if_pos hF0] at hbufeq hbufeq2
      have hAfin : (feedChunk parse st a).finished = true := by
        rw [hA, hbufeq]; exact hF0
      rw [feedChunk_finished parse _ b hAfin, hLHS, hbufeq2, hA, hbufeq]
      all_goals exact foldl_procLine_finished parse _ _ hF0
    · have hF0f : ((s :: ss).dropLast.foldl (procLine parse) st).finished = false := by
        simpa using hF0
      rw [if_neg hF0] at hbufeq hbufeq2
      have hAfin : (feedChunk parse st a).finished = false := by
        rw [hA, hbufeq]; simpa using hF0f
      have hAbuf : (feedChunk parse st a).buffer = (s :: ss).getLastD [] := by
        rw [hA, hbufeq]
      have hsb : splitNl ((s :: ss).getLastD [] ++ b)
          = ((s :: ss).getLastD [] ++ t) :: ts := by
        rw [splitNl_append, splitNl_eq_single _ hlast, hy]
        simp only [List.headD_cons, List.tail_cons, getLastD_single,
          List.dropLast_single, List.nil_append]
      rw [feedChunk_eq parse _ b hAfin, hAbuf, hsb, hLHS, hbufeq2, hA, hbufeq]

/-- Feeding preserves the invariant that the carry-over buffer holds no
newline. -/
theorem buffer_newline_free (parse : List Char → Option ParsedChunk) (st : StreamState)
    (chunk : List Char) (h : ∀ c ∈ st.buffer, c ≠ '\n') :
    ∀ c ∈ (feedChunk parse st chunk).buffer, c ≠ '\n' := by
  by_cases hfin : st.finished = true
  · rw [feedChunk_finished parse st chunk hfin]; exact h
  · have hf0 : st.finished = false := by simpa using hfin
    rw [feedChunk_eq parse st chunk hf0]
    rcases foldl_procLine_buffer_cases parse ((splitNl (st.buffer ++ chunk)).dropLast)
        { st with buffer := (splitNl (st.buffer ++ chunk)).getLastD [] } with hb | hb
    · rw [hb]
      exact newline_not_in_last (st.buffer ++ chunk)
    · rw [hb]
      intro c hc
      cases hc

/-- Feeding the empty chunk to a state whose buffer is newline-free changes
nothing. -/
theorem feedChunk_nil (parse : List Char → Option ParsedChunk) (st : StreamState)
    (h : ∀ c ∈ st.buffer, c ≠ '\n') : feedChunk parse st [] = st := by
  by_cases hfin : st.finished = true
  · exact feedChunk_finished parse st [] hfin
  · have hf0 : st.finished = false := by simpa using hfin
    rw [feedChunk_eq parse st [] hf0, List.append_nil, splitNl_eq_single st.buffer h]
    all_goals rfl

/-- A fold over any chunk list equals one feed of the joined body. -/
theorem foldl_feedChunk_join (parse : List Char → Option ParsedChunk)
    (chunks : List (List Char)) :
    ∀ st : StreamState, (∀ c ∈ st.buffer, c ≠ '\n') →
      chunks.foldl (feedChunk parse) st = feedChunk parse st (joinChunks chunks) := by
  induction chunks with
  | nil =>
      intro st h
      rw [List.foldl_nil]
      exact (feedChunk_nil parse st h).symm
  | cons chunk rest ih =>
      intro st h
      rw [List.foldl_cons, ih (feedChunk parse st chunk) (buffer_newline_free parse st chunk h)]
      exact (feedChunk_append parse st chunk (joinChunks rest)).symm

/-- The loading-state bump leaves the message untouched. -/
theorem message_bump (st : StreamState) :
    ({ st with loadingEnds := st.loadingEnds + 1 }).message = st.message := rfl

/-- The loading-state bump adds exactly one. -/
theorem loading_bump (st : StreamState) :
    ({ st with loadingEnds := st.loadingEnds + 1 }).loadingEnds = st.loadingEnds + 1 := rfl

/-- C7: the streaming handler is insensitive to how the body is cut into
chunks (any trailing partial line is carried over between reads); the
reconstructed message is exactly the in-order concatenation of the content
fields of the complete data-marked lines of the body up to the first [DONE]
sentinel, with unparseable payloads contributing nothing and aborting
nothing; and the loading state ends exactly once, whether or not a [DONE]
line arrived. -/
theorem streaming_c7 :
    ∀ (parse : List Char → Option ParsedChunk) (chunks : List (List Char)),
      handleStreamingResponse parse chunks
        = handleStreamingResponse parse [joinChunks chunks]
      ∧ (handleStreamingResponse parse chunks).message
          = expectedMessage parse ((splitNl (joinChunks chunks)).dropLast)
      ∧ (handleStreamingResponse parse chunks).loadingEnds = 1 := by
  intro parse chunks
  have hinit : ∀ c ∈ (initState).buffer, c ≠ '\n' := by
    intro c hc; cases hc
  have hjoin : chunks.foldl (feedChunk parse) initState
      = feedChunk parse initState (joinChunks chunks) :=
    foldl_feedChunk_join parse chunks initState hinit
  have hone : [joinChunks chunks].foldl (feedChunk parse) initState
      = feedChunk parse initState (joinChunks chunks) := by
    rw [List.foldl_cons, List.foldl_nil]
  have hchunks : handleStreamingResponse parse chunks
      = handleStreamingResponse parse [joinChunks chunks] := by
    simp only [handleStreamingResponse]
    rw [hjoin, hone]
  cases hL : splitNl (joinChunks chunks) with
  | nil => exact absurd hL (splitNl_ne_nil _)
  | cons t ts =>
  have hbody : feedChunk parse initState (joinChunks chunks)
      = (t :: ts).dropLast.foldl (procLine parse)
          { initState with buffer := (t :: ts).getLastD [] } := by
    rw [feedChunk_eq parse initState (joinChunks chunks) rfl]
    rw [show initState.buffer ++ joinChunks chunks = joinChunks chunks from rfl, hL]
  have hmsg := foldl_procLine_message parse ((t :: ts).dropLast)
      { initState with buffer := (t :: ts).getLastD [] } rfl
  refine ⟨hchunks, ?_, ?_⟩
  · simp only [handleStreamingResponse]
    rw [hjoin, hbody]
    by_cases hdone :
        ((t :: ts).dropLast.foldl (procLine parse)
          { initState with buffer := (t :: ts).getLastD [] }).finished = true
    · rw [if_pos hdone, hmsg.1]
      all_goals rfl
    · rw [if_neg hdone, message_bump, hmsg.1]
      all_goals rfl
  · simp only [handleStreamingResponse]
    rw [hjoin, hbody]
    by_cases hdone :
        ((t :: ts).dropLast.foldl (procLine parse)
          { initState with buffer := (t :: ts).getLastD [] }).finished = true
    · rw [if_pos hdone, hmsg.2.1 hdone]
      all_goals rfl
    · have hd0 : ((t :: ts).dropLast.foldl (procLine parse)
          { initState with buffer := (t :: ts).getLastD [] }).finished = false := by
        simpa using hdone
      rw [if_neg hdone, loading_bump, hmsg.2.2 hd0]
      all_goals rfl

/-- Sample run of the streaming handler: a split [DONE] sentinel reassembles
across the chunk boundary and only the parsed content line contributes. -/
theorem handleStreaming_sample :
    (handleStreamingResponse (fun _ => some ⟨some ['h', 'i']⟩)
      [['d', 'a', 't', 'a', ':', ' ', 'x', '\n', 'd', 'a', 't', 'a', ':', ' ', '[', 'D'],
       ['O', 'N', 'E', ']', '\n']]).message = ['h', 'i'] := by decide

end ChatStream

end HyperReader
